import Mathlib

/-!
Shallow embedding of the `diffusion::camera::Camera3D` class from
`src/lib/Camera.h`, together with the glm math operations it consumes.
C++ `float` arithmetic is modelled by exact real arithmetic.

The glm library is an external collaborator of this component (its sources
are not part of the camera core); its operations are modelled from the
specification, each marked `Modelled from the spec:`.
-/

noncomputable section

namespace Diffusion

/-- A 3-component real vector (glm::vec3). -/
@[ext]
structure Vec3 where
  x : ℝ
  y : ℝ
  z : ℝ

/-- Modelled from the spec: componentwise vector addition provided by the
external math library. -/
def Vec3.add (a b : Vec3) : Vec3 := ⟨a.x + b.x, a.y + b.y, a.z + b.z⟩

/-- Modelled from the spec: componentwise vector subtraction provided by the
external math library. -/
def Vec3.sub (a b : Vec3) : Vec3 := ⟨a.x - b.x, a.y - b.y, a.z - b.z⟩

/-- Modelled from the spec: componentwise vector negation (`-v`). -/
def Vec3.neg (a : Vec3) : Vec3 := ⟨-a.x, -a.y, -a.z⟩

/-- Modelled from the spec: scalar multiplication of a vector. -/
def Vec3.smul (t : ℝ) (a : Vec3) : Vec3 := ⟨t * a.x, t * a.y, t * a.z⟩

/-- Modelled from the spec: Euclidean dot product. -/
def Vec3.dot (a b : Vec3) : ℝ := a.x * b.x + a.y * b.y + a.z * b.z

/-- Modelled from the spec: the cross product of two 3-vectors. -/
def Vec3.cross (a b : Vec3) : Vec3 :=
  ⟨a.y * b.z - a.z * b.y, a.z * b.x - a.x * b.z, a.x * b.y - a.y * b.x⟩

/-- Modelled from the spec: vector normalization `v / |v|` (undefined on the
zero vector; here division by zero yields the junk value `0`). -/
def Vec3.vnormalize (a : Vec3) : Vec3 :=
  Vec3.smul (1 / Real.sqrt (Vec3.dot a a)) a

/-- Modelled from the spec: the zero vector, the value of a
default-constructed glm::vec3. -/
def Vec3.zero : Vec3 := ⟨0, 0, 0⟩

/-- A quaternion with real components (glm::quat), w the scalar part. -/
@[ext]
structure Quat where
  w : ℝ
  x : ℝ
  y : ℝ
  z : ℝ

/-- Modelled from the spec: the identity rotation quaternion, the value of a
default-constructed glm::quat. -/
def Quat.one : Quat := ⟨1, 0, 0, 0⟩

/-- Modelled from the spec: the zero quaternion (all components zero). -/
def Quat.zero : Quat := ⟨0, 0, 0, 0⟩

/-- Modelled from the spec: the Hamilton product of two quaternions
(`operator*` of the external math library). -/
def Quat.mul (p q : Quat) : Quat :=
  ⟨p.w * q.w - p.x * q.x - p.y * q.y - p.z * q.z,
   p.w * q.x + p.x * q.w + p.y * q.z - p.z * q.y,
   p.w * q.y + p.y * q.w + p.z * q.x - p.x * q.z,
   p.w * q.z + p.z * q.w + p.x * q.y - p.y * q.x⟩

/-- Modelled from the spec: the quaternion conjugate. -/
def Quat.conj (q : Quat) : Quat := ⟨q.w, -q.x, -q.y, -q.z⟩

/-- Modelled from the spec: the squared Euclidean norm of a quaternion. -/
def Quat.normSq (q : Quat) : ℝ := q.w * q.w + q.x * q.x + q.y * q.y + q.z * q.z

/-- Modelled from the spec: the Euclidean norm (length) of a quaternion. -/
def Quat.length (q : Quat) : ℝ := Real.sqrt q.normSq

/-- Componentwise scaling of a quaternion by a real number. -/
def Quat.scale (t : ℝ) (q : Quat) : Quat := ⟨t * q.w, t * q.x, t * q.y, t * q.z⟩

/-- Modelled from the spec: quaternion normalization `q / |q|`; normalization
of a zero quaternion is not a valid operation (here division by zero yields
the junk value `Quat.zero`). -/
def Quat.normalize (q : Quat) : Quat := Quat.scale (1 / q.length) q

/-- Modelled from the spec: quaternion inverse, the conjugate divided by the
squared norm. -/
def Quat.inverse (q : Quat) : Quat := Quat.scale (1 / q.normSq) q.conj

/-- Modelled from the spec: rotation of a vector by a quaternion
(glm `q * v`): `v + 2 (w (u × v) + u × (u × v))` with `u` the vector part. -/
def Quat.rotateVec (q : Quat) (v : Vec3) : Vec3 :=
  let u : Vec3 := ⟨q.x, q.y, q.z⟩
  let uv : Vec3 := Vec3.cross u v
  let uuv : Vec3 := Vec3.cross u uv
  Vec3.add v (Vec3.smul 2 (Vec3.add (Vec3.smul q.w uv) uuv))

/-- Modelled from the spec: glm `v * q`, the rotation of `v` by the inverse
of `q`; for the camera this converts a camera-local vector to world space
("converted to world space via the current orientation"). -/
def vecMulQuat (v : Vec3) (q : Quat) : Vec3 := Quat.rotateVec q.inverse v

/-- Modelled from the spec: the quaternion built from Euler angles
(pitch, yaw, roll), glm `quat(vec3 eulerAngles)` — half-angle
cosine/sine composition under the library's fixed convention. -/
def quatFromEuler (a : Vec3) : Quat :=
  let cx := Real.cos (a.x * (1 / 2)); let sx := Real.sin (a.x * (1 / 2))
  let cy := Real.cos (a.y * (1 / 2)); let sy := Real.sin (a.y * (1 / 2))
  let cz := Real.cos (a.z * (1 / 2)); let sz := Real.sin (a.z * (1 / 2))
  ⟨cx * cy * cz + sx * sy * sz,
   sx * cy * cz - cx * sy * sz,
   cx * sy * cz + sx * cy * sz,
   cx * cy * sz - sx * sy * cz⟩

/-- Modelled from the spec: glm `angleAxis(angle, axis)`, the quaternion
`(cos(angle/2), sin(angle/2) · axis)` (axis expected unit length). -/
def angleAxis (angle : ℝ) (axis : Vec3) : Quat :=
  let s := Real.sin (angle * (1 / 2))
  ⟨Real.cos (angle * (1 / 2)), axis.x * s, axis.y * s, axis.z * s⟩

/-- Modelled from the spec: the two-argument arctangent used by the
Euler-angle decomposition. -/
def atan2 (y x : ℝ) : ℝ :=
  if 0 < x then Real.arctan (y / x)
  else if x < 0 then
    (if 0 ≤ y then Real.arctan (y / x) + Real.pi
     else Real.arctan (y / x) - Real.pi)
  else
    (if 0 < y then Real.pi / 2 else if y < 0 then -(Real.pi / 2) else 0)

/-- Modelled from the spec: the pitch component of the fixed Euler-angle
decomposition of a quaternion (glm `pitch(q)`). -/
def Quat.pitchOf (q : Quat) : ℝ :=
  atan2 (2 * (q.y * q.z + q.w * q.x))
    (q.w * q.w - q.x * q.x - q.y * q.y + q.z * q.z)

/-- Modelled from the spec: the yaw component of the fixed Euler-angle
decomposition of a quaternion (glm `yaw(q)`). -/
def Quat.yawOf (q : Quat) : ℝ :=
  Real.arcsin (-2 * (q.x * q.z - q.w * q.y))

/-- Modelled from the spec: the roll component of the fixed Euler-angle
decomposition of a quaternion (glm `roll(q)`). -/
def Quat.rollOf (q : Quat) : ℝ :=
  atan2 (2 * (q.x * q.y + q.w * q.z))
    (q.w * q.w + q.x * q.x - q.y * q.y - q.z * q.z)

/-- Modelled from the spec: glm `eulerAngles(q)` = (pitch, yaw, roll) of the
fixed decomposition convention. -/
def eulerAnglesOf (q : Quat) : Vec3 := ⟨q.pitchOf, q.yawOf, q.rollOf⟩

/-- A 4×4 real matrix in glm column-major layout: field `mIJ` is entry
`m[I][J]` (column `I`, row `J`). -/
@[ext]
structure Mat4 where
  (m00 m01 m02 m03 : ℝ)
  (m10 m11 m12 m13 : ℝ)
  (m20 m21 m22 m23 : ℝ)
  (m30 m31 m32 m33 : ℝ)

/-- Modelled from the spec: the identity matrix, the value of a
default-constructed glm::mat4. -/
def Mat4.identity : Mat4 :=
  ⟨1, 0, 0, 0,
   0, 1, 0, 0,
   0, 0, 1, 0,
   0, 0, 0, 1⟩

/-- Modelled from the spec: glm matrix product; entry `[c][r]` of `A * B` is
`Σ k, A[k][r] * B[c][k]`. -/
def Mat4.mul (a b : Mat4) : Mat4 :=
  ⟨a.m00 * b.m00 + a.m10 * b.m01 + a.m20 * b.m02 + a.m30 * b.m03,
   a.m01 * b.m00 + a.m11 * b.m01 + a.m21 * b.m02 + a.m31 * b.m03,
   a.m02 * b.m00 + a.m12 * b.m01 + a.m22 * b.m02 + a.m32 * b.m03,
   a.m03 * b.m00 + a.m13 * b.m01 + a.m23 * b.m02 + a.m33 * b.m03,
   a.m00 * b.m10 + a.m10 * b.m11 + a.m20 * b.m12 + a.m30 * b.m13,
   a.m01 * b.m10 + a.m11 * b.m11 + a.m21 * b.m12 + a.m31 * b.m13,
   a.m02 * b.m10 + a.m12 * b.m11 + a.m22 * b.m12 + a.m32 * b.m13,
   a.m03 * b.m10 + a.m13 * b.m11 + a.m23 * b.m12 + a.m33 * b.m13,
   a.m00 * b.m20 + a.m10 * b.m21 + a.m20 * b.m22 + a.m30 * b.m23,
   a.m01 * b.m20 + a.m11 * b.m21 + a.m21 * b.m22 + a.m31 * b.m23,
   a.m02 * b.m20 + a.m12 * b.m21 + a.m22 * b.m22 + a.m32 * b.m23,
   a.m03 * b.m20 + a.m13 * b.m21 + a.m23 * b.m22 + a.m33 * b.m23,
   a.m00 * b.m30 + a.m10 * b.m31 + a.m20 * b.m32 + a.m30 * b.m33,
   a.m01 * b.m30 + a.m11 * b.m31 + a.m21 * b.m32 + a.m31 * b.m33,
   a.m02 * b.m30 + a.m12 * b.m31 + a.m22 * b.m32 + a.m32 * b.m33,
   a.m03 * b.m30 + a.m13 * b.m31 + a.m23 * b.m32 + a.m33 * b.m33⟩

/-- Modelled from the spec: glm `mat4_cast(q)`, the rotation matrix of a unit
quaternion (matrix-from-quaternion conversion). -/
def mat4Cast (q : Quat) : Mat4 :=
  ⟨1 - 2 * (q.y * q.y + q.z * q.z), 2 * (q.x * q.y + q.w * q.z),
     2 * (q.x * q.z - q.w * q.y), 0,
   2 * (q.x * q.y - q.w * q.z), 1 - 2 * (q.x * q.x + q.z * q.z),
     2 * (q.y * q.z + q.w * q.x), 0,
   2 * (q.x * q.z + q.w * q.y), 2 * (q.y * q.z - q.w * q.x),
     1 - 2 * (q.x * q.x + q.y * q.y), 0,
   0, 0, 0, 1⟩

/-- Modelled from the spec: glm `translate(m, v)` — `m` with its fourth
column replaced by `m[0]·v.x + m[1]·v.y + m[2]·v.z + m[3]`
(translation-matrix construction). -/
def glmTranslate (m : Mat4) (v : Vec3) : Mat4 :=
  { m with
    m30 := m.m00 * v.x + m.m10 * v.y + m.m20 * v.z + m.m30
    m31 := m.m01 * v.x + m.m11 * v.y + m.m21 * v.z + m.m31
    m32 := m.m02 * v.x + m.m12 * v.y + m.m22 * v.z + m.m32
    m33 := m.m03 * v.x + m.m13 * v.y + m.m23 * v.z + m.m33 }

/-- Modelled from the spec: the right-handed look-at view matrix built from
an eye position, a target point and an up vector. -/
def lookAt (eye center up : Vec3) : Mat4 :=
  let f := Vec3.vnormalize (Vec3.sub center eye)
  let s := Vec3.vnormalize (Vec3.cross f up)
  let u := Vec3.cross s f
  ⟨s.x, u.x, -f.x, 0,
   s.y, u.y, -f.y, 0,
   s.z, u.z, -f.z, 0,
   -(Vec3.dot s eye), -(Vec3.dot u eye), Vec3.dot f eye, 1⟩

/-- The camera state: position, orientation and the cached view matrix
(fields of `Camera3D` in src/lib/Camera.h). -/
@[ext]
structure Camera3D where
  position : Vec3
  orientation : Quat
  viewMatrix : Mat4

namespace Camera3D

/-- `Camera3D::updateViewMatrix`: recomputes the cached view matrix as
`mat4_cast(orientation) * glm::translate(identity, -position)`. -/
def updateViewMatrix (c : Camera3D) : Camera3D :=
  let rotate := mat4Cast c.orientation
  let translate := glmTranslate Mat4.identity c.position.neg
  { c with viewMatrix := Mat4.mul rotate translate }

/-- `Camera3D::Camera3D()`: default constructor — origin position, identity
orientation, then `updateViewMatrix`. -/
def mkDefault : Camera3D :=
  updateViewMatrix ⟨Vec3.zero, Quat.one, Mat4.identity⟩

/-- `Camera3D::Camera3D(position)`: given position, default (identity)
orientation, then `updateViewMatrix`. -/
def mkWithPosition (p : Vec3) : Camera3D :=
  updateViewMatrix ⟨p, Quat.one, Mat4.identity⟩

/-- `Camera3D::Camera3D(position, orientation)`: given position, orientation
stored normalized, then `updateViewMatrix`. -/
def mkWithPositionOrientation (p : Vec3) (q : Quat) : Camera3D :=
  updateViewMatrix ⟨p, q.normalize, Mat4.identity⟩

/-- `Camera3D::getViewMatrix`. -/
def getViewMatrix (c : Camera3D) : Mat4 := c.viewMatrix

/-- `Camera3D::rotate(const glm::quat &q)`:
`orientation = normalize(orientation * q)` then `updateViewMatrix`. -/
def rotateQuat (c : Camera3D) (q : Quat) : Camera3D :=
  updateViewMatrix { c with orientation := (c.orientation.mul q).normalize }

/-- `Camera3D::rotate(const glm::vec3 &angles)`:
`rotate(glm::quat(angles))`. -/
def rotateEuler (c : Camera3D) (angles : Vec3) : Camera3D :=
  c.rotateQuat (quatFromEuler angles)

/-- `Camera3D::rotate(float angle, const glm::vec3 axis)`:
`rotate(glm::angleAxis(angle, axis))`. -/
def rotateAngleAxis (c : Camera3D) (angle : ℝ) (axis : Vec3) : Camera3D :=
  c.rotateQuat (angleAxis angle axis)

/-- `Camera3D::translate(const glm::vec3 &v)`:
`position = position + (v * orientation)` then `updateViewMatrix`. -/
def translateVec (c : Camera3D) (v : Vec3) : Camera3D :=
  updateViewMatrix
    { c with position := c.position.add (vecMulQuat v c.orientation) }

/-- `Camera3D::translate(float x, float y, float z)`:
`translate(glm::vec3(x, y, z))`. -/
def translateXYZ (c : Camera3D) (x y z : ℝ) : Camera3D :=
  c.translateVec ⟨x, y, z⟩

/-- `Camera3D::pitch(float angle)`: `rotate(angle, vec3(1,0,0))`. -/
def pitch (c : Camera3D) (angle : ℝ) : Camera3D :=
  c.rotateAngleAxis angle ⟨1, 0, 0⟩

/-- `Camera3D::yaw(float angle)`: `rotate(angle, vec3(0,1,0))`. -/
def yaw (c : Camera3D) (angle : ℝ) : Camera3D :=
  c.rotateAngleAxis angle ⟨0, 1, 0⟩

/-- `Camera3D::roll(float angle)`: `rotate(angle, vec3(0,0,1))`. -/
def roll (c : Camera3D) (angle : ℝ) : Camera3D :=
  c.rotateAngleAxis angle ⟨0, 0, 1⟩

/-- `Camera3D::getEulerAngles`: `glm::eulerAngles(orientation)`. -/
def getEulerAngles (c : Camera3D) : Vec3 := eulerAnglesOf c.orientation

/-- `Camera3D::setEulerAngles`:
`orientation = normalize(glm::quat(angles))` then `updateViewMatrix`. -/
def setEulerAngles (c : Camera3D) (angles : Vec3) : Camera3D :=
  updateViewMatrix { c with orientation := (quatFromEuler angles).normalize }

/-- `Camera3D::getOrientation`. -/
def getOrientation (c : Camera3D) : Quat := c.orientation

/-- `Camera3D::setOrientation`:
`orientation = normalize(q)` then `updateViewMatrix`. -/
def setOrientation (c : Camera3D) (q : Quat) : Camera3D :=
  updateViewMatrix { c with orientation := q.normalize }

/-- `Camera3D::getPitch`: `glm::pitch(orientation)`. -/
def getPitch (c : Camera3D) : ℝ := c.orientation.pitchOf

/-- `Camera3D::setPitch(float radians)`: read the Euler angles, overwrite
component 0, recompose via `setEulerAngles`. -/
def setPitch (c : Camera3D) (radians : ℝ) : Camera3D :=
  let angles := c.getEulerAngles
  c.setEulerAngles ⟨radians, angles.y, angles.z⟩

/-- `Camera3D::getYaw`: `glm::yaw(orientation)`. -/
def getYaw (c : Camera3D) : ℝ := c.orientation.yawOf

/-- `Camera3D::setYaw(float radians)`: read the Euler angles, overwrite
component 1, recompose via `setEulerAngles`. -/
def setYaw (c : Camera3D) (radians : ℝ) : Camera3D :=
  let angles := c.getEulerAngles
  c.setEulerAngles ⟨angles.x, radians, angles.z⟩

/-- `Camera3D::getRoll`: `glm::roll(orientation)`. -/
def getRoll (c : Camera3D) : ℝ := c.orientation.rollOf

/-- `Camera3D::setRoll(float radians)`: read the Euler angles, overwrite
component 2, recompose via `setEulerAngles`. -/
def setRoll (c : Camera3D) (radians : ℝ) : Camera3D :=
  let angles := c.getEulerAngles
  c.setEulerAngles ⟨angles.x, angles.y, radians⟩

/-- `Camera3D::getPosition`. -/
def getPosition (c : Camera3D) : Vec3 := c.position

/-- `Camera3D::setPosition`: `position = v` then `updateViewMatrix`. -/
def setPosition (c : Camera3D) (v : Vec3) : Camera3D :=
  updateViewMatrix { c with position := v }

/-- `Camera3D::getX`. -/
def getX (c : Camera3D) : ℝ := c.position.x

/-- `Camera3D::setX`: `position[0] = x` then `updateViewMatrix`. -/
def setX (c : Camera3D) (v : ℝ) : Camera3D :=
  updateViewMatrix { c with position := ⟨v, c.position.y, c.position.z⟩ }

/-- `Camera3D::getY`. -/
def getY (c : Camera3D) : ℝ := c.position.y

/-- `Camera3D::setY`: `position[1] = y` then `updateViewMatrix`. -/
def setY (c : Camera3D) (v : ℝ) : Camera3D :=
  updateViewMatrix { c with position := ⟨c.position.x, v, c.position.z⟩ }

/-- `Camera3D::getZ`. -/
def getZ (c : Camera3D) : ℝ := c.position.z

/-- `Camera3D::setZ`: `position[2] = z` then `updateViewMatrix`. -/
def setZ (c : Camera3D) (v : ℝ) : Camera3D :=
  updateViewMatrix { c with position := ⟨c.position.x, c.position.y, v⟩ }

end Camera3D

/-- The camera states reachable through the public constructors and mutators
of `Camera3D`. -/
inductive Reachable : Camera3D → Prop
  | mkDefault : Reachable Camera3D.mkDefault
  | mkWithPosition (p : Vec3) : Reachable (Camera3D.mkWithPosition p)
  | mkWithPositionOrientation (p : Vec3) (q : Quat) :
      Reachable (Camera3D.mkWithPositionOrientation p q)
  | rotateQuat {c : Camera3D} (hc : Reachable c) (q : Quat) :
      Reachable (c.rotateQuat q)
  | rotateEuler {c : Camera3D} (hc : Reachable c) (a : Vec3) :
      Reachable (c.rotateEuler a)
  | rotateAngleAxis {c : Camera3D} (hc : Reachable c) (ang : ℝ) (ax : Vec3) :
      Reachable (c.rotateAngleAxis ang ax)
  | translateVec {c : Camera3D} (hc : Reachable c) (v : Vec3) :
      Reachable (c.translateVec v)
  | translateXYZ {c : Camera3D} (hc : Reachable c) (x y z : ℝ) :
      Reachable (c.translateXYZ x y z)
  | pitch {c : Camera3D} (hc : Reachable c) (a : ℝ) : Reachable (c.pitch a)
  | yaw {c : Camera3D} (hc : Reachable c) (a : ℝ) : Reachable (c.yaw a)
  | roll {c : Camera3D} (hc : Reachable c) (a : ℝ) : Reachable (c.roll a)
  | setEulerAngles {c : Camera3D} (hc : Reachable c) (a : Vec3) :
      Reachable (c.setEulerAngles a)
  | setOrientation {c : Camera3D} (hc : Reachable c) (q : Quat) :
      Reachable (c.setOrientation q)
  | setPitch {c : Camera3D} (hc : Reachable c) (r : ℝ) :
      Reachable (c.setPitch r)
  | setYaw {c : Camera3D} (hc : Reachable c) (r : ℝ) : Reachable (c.setYaw r)
  | setRoll {c : Camera3D} (hc : Reachable c) (r : ℝ) :
      Reachable (c.setRoll r)
  | setPosition {c : Camera3D} (hc : Reachable c) (v : Vec3) :
      Reachable (c.setPosition v)
  | setX {c : Camera3D} (hc : Reachable c) (v : ℝ) : Reachable (c.setX v)
  | setY {c : Camera3D} (hc : Reachable c) (v : ℝ) : Reachable (c.setY v)
  | setZ {c : Camera3D} (hc : Reachable c) (v : ℝ) : Reachable (c.setZ v)

/-- The camera states reachable through the public constructors and mutators
when every supplied orientation quaternion is nonzero (the precondition of
§7 of the specification: a zero-length quaternion passed to an
orientation-setting operation is a precondition violation). -/
inductive ReachableValid : Camera3D → Prop
  | mkDefault : ReachableValid Camera3D.mkDefault
  | mkWithPosition (p : Vec3) : ReachableValid (Camera3D.mkWithPosition p)
  | mkWithPositionOrientation (p : Vec3) (q : Quat) (hq : q ≠ Quat.zero) :
      ReachableValid (Camera3D.mkWithPositionOrientation p q)
  | rotateQuat {c : Camera3D} (hc : ReachableValid c) (q : Quat)
      (hq : q ≠ Quat.zero) : ReachableValid (c.rotateQuat q)
  | rotateEuler {c : Camera3D} (hc : ReachableValid c) (a : Vec3) :
      ReachableValid (c.rotateEuler a)
  | rotateAngleAxis {c : Camera3D} (hc : ReachableValid c) (ang : ℝ)
      (ax : Vec3) (hq : angleAxis ang ax ≠ Quat.zero) :
      ReachableValid (c.rotateAngleAxis ang ax)
  | translateVec {c : Camera3D} (hc : ReachableValid c) (v : Vec3) :
      ReachableValid (c.translateVec v)
  | translateXYZ {c : Camera3D} (hc : ReachableValid c) (x y z : ℝ) :
      ReachableValid (c.translateXYZ x y z)
  | pitch {c : Camera3D} (hc : ReachableValid c) (a : ℝ) :
      ReachableValid (c.pitch a)
  | yaw {c : Camera3D} (hc : ReachableValid c) (a : ℝ) :
      ReachableValid (c.yaw a)
  | roll {c : Camera3D} (hc : ReachableValid c) (a : ℝ) :
      ReachableValid (c.roll a)
  | setEulerAngles {c : Camera3D} (hc : ReachableValid c) (a : Vec3) :
      ReachableValid (c.setEulerAngles a)
  | setOrientation {c : Camera3D} (hc : ReachableValid c) (q : Quat)
      (hq : q ≠ Quat.zero) : ReachableValid (c.setOrientation q)
  | setPitch {c : Camera3D} (hc : ReachableValid c) (r : ℝ) :
      ReachableValid (c.setPitch r)
  | setYaw {c : Camera3D} (hc : ReachableValid c) (r : ℝ) :
      ReachableValid (c.setYaw r)
  | setRoll {c : Camera3D} (hc : ReachableValid c) (r : ℝ) :
      ReachableValid (c.setRoll r)
  | setPosition {c : Camera3D} (hc : ReachableValid c) (v : Vec3) :
      ReachableValid (c.setPosition v)
  | setX {c : Camera3D} (hc : ReachableValid c) (v : ℝ) :
      ReachableValid (c.setX v)
  | setY {c : Camera3D} (hc : ReachableValid c) (v : ℝ) :
      ReachableValid (c.setY v)
  | setZ {c : Camera3D} (hc : ReachableValid c) (v : ℝ) :
      ReachableValid (c.setZ v)

/-! Basic quaternion norm lemmas used by the invariant proofs. -/

theorem Quat.normSq_nonneg (q : Quat) : 0 ≤ q.normSq := by
  have := mul_self_nonneg q.w
  have := mul_self_nonneg q.x
  have := mul_self_nonneg q.y
  have := mul_self_nonneg q.z
  unfold Quat.normSq
  linarith

theorem Quat.normSq_eq_zero_iff (q : Quat) : q.normSq = 0 ↔ q = Quat.zero := by
  constructor
  · intro h
    unfold Quat.normSq at h
    have h1 := mul_self_nonneg q.w
    have h2 := mul_self_nonneg q.x
    have h3 := mul_self_nonneg q.y
    have h4 := mul_self_nonneg q.z
    have hw : q.w = 0 := by
      have : q.w * q.w = 0 := by linarith
      exact mul_self_eq_zero.mp this
    have hx : q.x = 0 := by
      have : q.x * q.x = 0 := by linarith
      exact mul_self_eq_zero.mp this
    have hy : q.y = 0 := by
      have : q.y * q.y = 0 := by linarith
      exact mul_self_eq_zero.mp this
    have hz : q.z = 0 := by
      have : q.z * q.z = 0 := by linarith
      exact mul_self_eq_zero.mp this
    ext <;> simp [hw, hx, hy, hz, Quat.zero]
  · intro h
    rw [h]
    simp [Quat.normSq, Quat.zero]

theorem Quat.normSq_ne_zero_of_ne_zero {q : Quat} (h : q ≠ Quat.zero) :
    q.normSq ≠ 0 := fun h0 => h (q.normSq_eq_zero_iff.mp h0)

theorem Quat.normSq_mul (p q : Quat) :
    (p.mul q).normSq = p.normSq * q.normSq := by
  simp only [Quat.mul, Quat.normSq]
  ring

theorem Quat.normSq_scale (t : ℝ) (q : Quat) :
    (Quat.scale t q).normSq = t ^ 2 * q.normSq := by
  simp only [Quat.scale, Quat.normSq]
  ring

theorem Quat.normSq_normalize {q : Quat} (h : q.normSq ≠ 0) :
    q.normalize.normSq = 1 := by
  have hs : Real.sqrt q.normSq ^ 2 = q.normSq := Real.sq_sqrt q.normSq_nonneg
  rw [Quat.normalize, Quat.normSq_scale, Quat.length, div_pow, one_pow, hs]
  field_simp

theorem Quat.normalize_of_normSq_one {q : Quat} (h : q.normSq = 1) :
    q.normalize = q := by
  unfold Quat.normalize Quat.length Quat.scale
  rw [h, Real.sqrt_one]
  ext <;> simp

theorem Quat.normalize_zero : Quat.zero.normalize = Quat.zero := by
  unfold Quat.normalize Quat.scale
  ext <;> simp [Quat.zero]

theorem Quat.normalize_normalize (q : Quat) :
    q.normalize.normalize = q.normalize := by
  by_cases h : q.normSq = 0
  · rw [q.normSq_eq_zero_iff.mp h, Quat.normalize_zero, Quat.normalize_zero]
  · exact Quat.normalize_of_normSq_one (Quat.normSq_normalize h)

theorem Quat.normSq_one : Quat.one.normSq = 1 := by
  simp [Quat.normSq, Quat.one]

theorem normSq_quatFromEuler (a : Vec3) : (quatFromEuler a).normSq = 1 := by
  have hx := Real.sin_sq_add_cos_sq (a.x * (1 / 2))
  have hy := Real.sin_sq_add_cos_sq (a.y * (1 / 2))
  have hz := Real.sin_sq_add_cos_sq (a.z * (1 / 2))
  simp only [quatFromEuler, Quat.normSq]
  linear_combination
    (Real.sin (a.y * (1 / 2)) ^ 2 + Real.cos (a.y * (1 / 2)) ^ 2) *
        (Real.sin (a.z * (1 / 2)) ^ 2 + Real.cos (a.z * (1 / 2)) ^ 2) * hx +
      (Real.sin (a.z * (1 / 2)) ^ 2 + Real.cos (a.z * (1 / 2)) ^ 2) * hy + hz

theorem normSq_angleAxis_of_unit_axis (ang : ℝ) (ax : Vec3)
    (h : Vec3.dot ax ax = 1) : (angleAxis ang ax).normSq = 1 := by
  have hp := Real.sin_sq_add_cos_sq (ang * (1 / 2))
  simp only [angleAxis, Quat.normSq, Vec3.dot] at *
  nlinarith [hp, h]

/-! The two inductive state invariants shared by several claims: the cached
view matrix is always what `updateViewMatrix` computes from the current
pose, and the stored orientation is a fixed point of normalization. -/

theorem Camera3D.view_after_update (s : Camera3D) :
    (Camera3D.updateViewMatrix s).viewMatrix =
      Mat4.mul (mat4Cast s.orientation)
        (glmTranslate Mat4.identity s.position.neg) := rfl

theorem Camera3D.orientation_after_update (s : Camera3D) :
    (Camera3D.updateViewMatrix s).orientation = s.orientation := rfl

theorem Camera3D.position_after_update (s : Camera3D) :
    (Camera3D.updateViewMatrix s).position = s.position := rfl

theorem Reachable.view_eq {c : Camera3D} (h : Reachable c) :
    c.viewMatrix =
      Mat4.mul (mat4Cast c.orientation)
        (glmTranslate Mat4.identity c.position.neg) := by
  induction h <;>
    simp only [Camera3D.mkDefault, Camera3D.mkWithPosition,
      Camera3D.mkWithPositionOrientation, Camera3D.rotateQuat,
      Camera3D.rotateEuler, Camera3D.rotateAngleAxis, Camera3D.translateVec,
      Camera3D.translateXYZ, Camera3D.pitch, Camera3D.yaw, Camera3D.roll,
      Camera3D.setEulerAngles, Camera3D.setOrientation, Camera3D.setPitch,
      Camera3D.setYaw, Camera3D.setRoll, Camera3D.setPosition, Camera3D.setX,
      Camera3D.setY, Camera3D.setZ, Camera3D.getEulerAngles,
      Camera3D.view_after_update, Camera3D.orientation_after_update,
      Camera3D.position_after_update]

theorem Reachable.orientation_normalized {c : Camera3D} (h : Reachable c) :
    c.orientation.normalize = c.orientation := by
  have h1 : Quat.one.normalize = Quat.one :=
    Quat.normalize_of_normSq_one Quat.normSq_one
  induction h with
  | mkDefault =>
      simpa only [Camera3D.mkDefault, Camera3D.orientation_after_update]
        using h1
  | mkWithPosition p =>
      simpa only [Camera3D.mkWithPosition, Camera3D.orientation_after_update]
        using h1
  | mkWithPositionOrientation p q =>
      simpa only [Camera3D.mkWithPositionOrientation,
        Camera3D.orientation_after_update] using Quat.normalize_normalize q
  | rotateQuat hc q ih =>
      simpa only [Camera3D.rotateQuat, Camera3D.orientation_after_update]
        using Quat.normalize_normalize _
  | rotateEuler hc a ih =>
      simpa only [Camera3D.rotateEuler, Camera3D.rotateQuat,
        Camera3D.orientation_after_update] using Quat.normalize_normalize _
  | rotateAngleAxis hc ang ax ih =>
      simpa only [Camera3D.rotateAngleAxis, Camera3D.rotateQuat,
        Camera3D.orientation_after_update] using Quat.normalize_normalize _
  | translateVec hc v ih =>
      simpa only [Camera3D.translateVec, Camera3D.orientation_after_update]
        using ih
  | translateXYZ hc x y z ih =>
      simpa only [Camera3D.translateXYZ, Camera3D.translateVec,
        Camera3D.orientation_after_update] using ih
  | pitch hc a ih =>
      simpa only [Camera3D.pitch, Camera3D.rotateAngleAxis,
        Camera3D.rotateQuat, Camera3D.orientation_after_update]
        using Quat.normalize_normalize _
  | yaw hc a ih =>
      simpa only [Camera3D.yaw, Camera3D.rotateAngleAxis,
        Camera3D.rotateQuat, Camera3D.orientation_after_update]
        using Quat.normalize_normalize _
  | roll hc a ih =>
      simpa only [Camera3D.roll, Camera3D.rotateAngleAxis,
        Camera3D.rotateQuat, Camera3D.orientation_after_update]
        using Quat.normalize_normalize _
  | setEulerAngles hc a ih =>
      simpa only [Camera3D.setEulerAngles, Camera3D.orientation_after_update]
        using Quat.normalize_normalize _
  | setOrientation hc q ih =>
      simpa only [Camera3D.setOrientation, Camera3D.orientation_after_update]
        using Quat.normalize_normalize _
  | setPitch hc r ih =>
      simpa only [Camera3D.setPitch, Camera3D.setEulerAngles,
        Camera3D.orientation_after_update] using Quat.normalize_normalize _
  | setYaw hc r ih =>
      simpa only [Camera3D.setYaw, Camera3D.setEulerAngles,
        Camera3D.orientation_after_update] using Quat.normalize_normalize _
  | setRoll hc r ih =>
      simpa only [Camera3D.setRoll, Camera3D.setEulerAngles,
        Camera3D.orientation_after_update] using Quat.normalize_normalize _
  | setPosition hc v ih =>
      simpa only [Camera3D.setPosition, Camera3D.orientation_after_update]
        using ih
  | setX hc v ih =>
      simpa only [Camera3D.setX, Camera3D.orientation_after_update] using ih
  | setY hc v ih =>
      simpa only [Camera3D.setY, Camera3D.orientation_after_update] using ih
  | setZ hc v ih =>
      simpa only [Camera3D.setZ, Camera3D.orientation_after_update] using ih

theorem ReachableValid.orientation_unit {c : Camera3D}
    (h : ReachableValid c) : c.orientation.normSq = 1 := by
  induction h with
  | mkDefault => exact Quat.normSq_one
  | mkWithPosition p => exact Quat.normSq_one
  | mkWithPositionOrientation p q hq =>
      exact Quat.normSq_normalize (Quat.normSq_ne_zero_of_ne_zero hq)
  | rotateQuat hc q hq ih =>
      refine Quat.normSq_normalize ?_
      rw [Quat.normSq_mul, ih, one_mul]
      exact Quat.normSq_ne_zero_of_ne_zero hq
  | rotateEuler hc a ih =>
      refine Quat.normSq_normalize ?_
      rw [Quat.normSq_mul, ih, one_mul, normSq_quatFromEuler]
      norm_num
  | rotateAngleAxis hc ang ax hq ih =>
      refine Quat.normSq_normalize ?_
      rw [Quat.normSq_mul, ih, one_mul]
      exact Quat.normSq_ne_zero_of_ne_zero hq
  | translateVec hc v ih => exact ih
  | translateXYZ hc x y z ih => exact ih
  | pitch hc a ih =>
      refine Quat.normSq_normalize ?_
      rw [Quat.normSq_mul, ih, one_mul,
        normSq_angleAxis_of_unit_axis a ⟨1, 0, 0⟩ (by norm_num [Vec3.dot])]
      norm_num
  | yaw hc a ih =>
      refine Quat.normSq_normalize ?_
      rw [Quat.normSq_mul, ih, one_mul,
        normSq_angleAxis_of_unit_axis a ⟨0, 1, 0⟩ (by norm_num [Vec3.dot])]
      norm_num
  | roll hc a ih =>
      refine Quat.normSq_normalize ?_
      rw [Quat.normSq_mul, ih, one_mul,
        normSq_angleAxis_of_unit_axis a ⟨0, 0, 1⟩ (by norm_num [Vec3.dot])]
      norm_num
  | setEulerAngles hc a ih =>
      refine Quat.normSq_normalize ?_
      rw [normSq_quatFromEuler]
      norm_num
  | setOrientation hc q hq ih =>
      exact Quat.normSq_normalize (Quat.normSq_ne_zero_of_ne_zero hq)
  | setPitch hc r ih =>
      refine Quat.normSq_normalize ?_
      rw [normSq_quatFromEuler]
      norm_num
  | setYaw hc r ih =>
      refine Quat.normSq_normalize ?_
      rw [normSq_quatFromEuler]
      norm_num
  | setRoll hc r ih =>
      refine Quat.normSq_normalize ?_
      rw [normSq_quatFromEuler]
      norm_num
  | setPosition hc v ih => exact ih
  | setX hc v ih => exact ih
  | setY hc v ih => exact ih
  | setZ hc v ih => exact ih

/-! Quaternion algebra helpers. -/

theorem Quat.one_mul (q : Quat) : Quat.one.mul q = q := by
  unfold Quat.mul Quat.one
  ext <;> simp

theorem Quat.mul_assoc (p q r : Quat) :
    (p.mul q).mul r = p.mul (q.mul r) := by
  unfold Quat.mul
  ext <;> simp <;> ring

/-! Concrete evaluations used by the pitch-90-degrees test of the
specification: the quaternion produced by angleAxis(pi/2, (1,0,0)), the
orientation and view matrix of a default camera pitched by pi/2, and the
value of the degenerate look-at matrix whose forward direction is parallel
to its up vector. -/

theorem angleAxis_pitch90_eq : angleAxis (Real.pi / 2) ⟨1, 0, 0⟩ =
    ⟨Real.sqrt 2 / 2, Real.sqrt 2 / 2, 0, 0⟩ := by
  have hpi : Real.pi / 2 * (1 / 2) = Real.pi / 4 := by ring
  simp only [angleAxis, hpi, Real.cos_pi_div_four, Real.sin_pi_div_four]
  ext <;> norm_num

theorem normSq_pitch90 :
    Quat.normSq ⟨Real.sqrt 2 / 2, Real.sqrt 2 / 2, 0, 0⟩ = 1 := by
  have h2 : Real.sqrt 2 * Real.sqrt 2 = 2 := Real.mul_self_sqrt (by norm_num)
  simp only [Quat.normSq]
  nlinarith [h2]

theorem pitch90_default_orientation :
    (Camera3D.mkDefault.pitch (Real.pi / 2)).orientation =
      ⟨Real.sqrt 2 / 2, Real.sqrt 2 / 2, 0, 0⟩ := by
  simp only [Camera3D.pitch, Camera3D.rotateAngleAxis, Camera3D.rotateQuat,
    Camera3D.orientation_after_update, angleAxis_pitch90_eq]
  rw [show Camera3D.mkDefault.orientation = Quat.one from rfl, Quat.one_mul]
  exact Quat.normalize_of_normSq_one normSq_pitch90

theorem pitch90_default_view :
    (Camera3D.mkDefault.pitch (Real.pi / 2)).viewMatrix =
      ⟨1, 0, 0, 0, 0, 0, 1, 0, 0, -1, 0, 0, 0, 0, 0, 1⟩ := by
  have h2 : Real.sqrt 2 * Real.sqrt 2 = 2 := Real.mul_self_sqrt (by norm_num)
  rw [Reachable.view_eq ((Reachable.mkDefault).pitch (Real.pi / 2)),
    pitch90_default_orientation,
    show (Camera3D.mkDefault.pitch (Real.pi / 2)).position = Vec3.zero from rfl]
  simp only [Mat4.mul, mat4Cast, glmTranslate, Mat4.identity, Vec3.neg,
    Vec3.zero]
  norm_num
  repeat' apply And.intro
  all_goals nlinarith [h2]

theorem lookAt_pitch90_degenerate_eq :
    lookAt ⟨0, 0, 0⟩ ⟨0, -1, 0⟩ ⟨0, 1, 0⟩ =
      ⟨0, 0, 0, 0, 0, 0, 1, 0, 0, 0, 0, 0, 0, 0, 0, 1⟩ := by
  simp only [lookAt, Vec3.vnormalize, Vec3.sub, Vec3.cross, Vec3.dot,
    Vec3.smul]
  norm_num [Real.sqrt_one]

/-! The claims. -/

/-- C1: After construction and after every mutator (rotate in all overloads,
translate, pitch, yaw, roll, setPosition, setX, setY, setZ, setOrientation,
setEulerAngles, setPitch, setYaw, setRoll) returns, the cached viewMatrix
equals rotationMatrix(orientation) * translationMatrix(-position) for the
current position and orientation; no reachable state has a stale view
matrix. -/
theorem viewMatrix_never_stale {c : Camera3D} (h : Reachable c) :
    c.viewMatrix =
      Mat4.mul (mat4Cast c.orientation)
        (glmTranslate Mat4.identity c.position.neg) :=
  h.view_eq

theorem viewMatrix_never_stale_witness :
    (Camera3D.mkDefault.translateXYZ 1 2 3).viewMatrix =
      Mat4.mul (mat4Cast (Camera3D.mkDefault.translateXYZ 1 2 3).orientation)
        (glmTranslate Mat4.identity
          (Camera3D.mkDefault.translateXYZ 1 2 3).position.neg) :=
  viewMatrix_never_stale ((Reachable.mkDefault).translateXYZ 1 2 3)

/-- C2: For every camera state and every vector v, translate(v) (and
translate(x,y,z)) sets position to position + (v converted to world space
via the current orientation, the glm product v * orientation) and leaves
orientation unchanged; on a default camera rotated 90 degrees about world y,
translate(1,0,0) yields a view matrix equal to
look-at(eye=(0,0,1), target=(1,0,1), up=(0,1,0)). -/
theorem translate_is_orientation_relative :
    (∀ (c : Camera3D) (v : Vec3),
        (c.translateVec v).position =
            c.position.add (vecMulQuat v c.orientation) ∧
          (c.translateVec v).orientation = c.orientation) ∧
      (∀ (c : Camera3D) (x y z : ℝ),
        c.translateXYZ x y z = c.translateVec ⟨x, y, z⟩) ∧
      ((Camera3D.mkDefault.rotateAngleAxis (Real.pi / 2)
            ⟨0, 1, 0⟩).translateXYZ 1 0 0).viewMatrix =
        lookAt ⟨0, 0, 1⟩ ⟨1, 0, 1⟩ ⟨0, 1, 0⟩ := by
  refine ⟨fun c v => ⟨rfl, rfl⟩, fun c x y z => rfl, ?_⟩
  have h2 : Real.sqrt 2 * Real.sqrt 2 = 2 := Real.mul_self_sqrt (by norm_num)
  have hpi : Real.pi / 2 * (1 / 2) = Real.pi / 4 := by ring
  have hq : angleAxis (Real.pi / 2) ⟨0, 1, 0⟩ =
      ⟨Real.sqrt 2 / 2, 0, Real.sqrt 2 / 2, 0⟩ := by
    simp only [angleAxis, hpi, Real.cos_pi_div_four, Real.sin_pi_div_four]
    ext <;> norm_num
  have hno : Quat.normSq ⟨Real.sqrt 2 / 2, 0, Real.sqrt 2 / 2, 0⟩ = 1 := by
    simp only [Quat.normSq]
    nlinarith [h2]
  have hv : vecMulQuat ⟨1, 0, 0⟩ ⟨Real.sqrt 2 / 2, 0, Real.sqrt 2 / 2, 0⟩ =
      ⟨0, 0, 1⟩ := by
    simp only [vecMulQuat, Quat.inverse, Quat.conj, Quat.rotateVec, hno,
      Quat.scale, Vec3.cross, Vec3.add, Vec3.smul]
    ext <;> simp <;> nlinarith [h2]
  have hio :
      (Camera3D.mkDefault.rotateAngleAxis (Real.pi / 2)
          ⟨0, 1, 0⟩).orientation = ⟨Real.sqrt 2 / 2, 0, Real.sqrt 2 / 2, 0⟩ := by
    simp only [Camera3D.rotateAngleAxis, Camera3D.rotateQuat,
      Camera3D.orientation_after_update, hq]
    rw [show Camera3D.mkDefault.orientation = Quat.one from rfl, Quat.one_mul]
    exact Quat.normalize_of_normSq_one hno
  have hpos :
      ((Camera3D.mkDefault.rotateAngleAxis (Real.pi / 2)
          ⟨0, 1, 0⟩).translateXYZ 1 0 0).position = ⟨0, 0, 1⟩ := by
    simp only [Camera3D.translateXYZ, Camera3D.translateVec,
      Camera3D.position_after_update, hio, hv]
    rw [show (Camera3D.mkDefault.rotateAngleAxis (Real.pi / 2)
        ⟨0, 1, 0⟩).position = Vec3.zero from rfl]
    ext <;> simp [Vec3.add, Vec3.zero]
  have horient :
      ((Camera3D.mkDefault.rotateAngleAxis (Real.pi / 2)
          ⟨0, 1, 0⟩).translateXYZ 1 0 0).orientation =
        ⟨Real.sqrt 2 / 2, 0, Real.sqrt 2 / 2, 0⟩ := by
    simp only [Camera3D.translateXYZ, Camera3D.translateVec,
      Camera3D.orientation_after_update]
    exact hio
  rw [Reachable.view_eq (((Reachable.mkDefault).rotateAngleAxis (Real.pi / 2)
      ⟨0, 1, 0⟩).translateXYZ 1 0 0), hpos, horient]
  simp only [lookAt, Vec3.vnormalize, Vec3.sub, Vec3.cross, Vec3.dot,
    Vec3.smul, Vec3.neg, Mat4.mul, mat4Cast, glmTranslate, Mat4.identity]
  norm_num [Real.sqrt_one]
  repeat' apply And.intro
  all_goals nlinarith [h2]

/-- C3: For every camera state reachable under the documented precondition
that every supplied orientation quaternion is nonzero, the stored
orientation quaternion has unit length (norm equal to 1 in exact
arithmetic); every operation that writes orientation normalizes the
composed or supplied value before storing it. -/
theorem orientation_unit_invariant {c : Camera3D} (h : ReachableValid c) :
    c.orientation.length = 1 := by
  rw [Quat.length, h.orientation_unit, Real.sqrt_one]

theorem orientation_unit_invariant_witness :
    (Camera3D.mkDefault.rotateQuat ⟨0, 1, 0, 0⟩).orientation.length = 1 :=
  orientation_unit_invariant
    ((ReachableValid.mkDefault).rotateQuat ⟨0, 1, 0, 0⟩
      (by norm_num [Quat.zero, Quat.mk.injEq, ne_eq]))

/-- C4: For every camera state and every quaternion q, rotate(q) sets
orientation to normalize(orientation * q) — q composed after the current
orientation by right-multiplication — and leaves position unchanged;
rotate(eulerAngles) behaves as rotate(quaternionFromEuler(eulerAngles)) and
rotate(angle, axis) as rotate(quaternionFromAngleAxis(angle, axis)). -/
theorem rotate_composes_locally :
    (∀ (c : Camera3D) (q : Quat),
        (c.rotateQuat q).orientation = (c.orientation.mul q).normalize ∧
          (c.rotateQuat q).position = c.position) ∧
      (∀ (c : Camera3D) (a : Vec3),
        c.rotateEuler a = c.rotateQuat (quatFromEuler a)) ∧
      (∀ (c : Camera3D) (ang : ℝ) (ax : Vec3),
        c.rotateAngleAxis ang ax = c.rotateQuat (angleAxis ang ax)) :=
  ⟨fun c q => ⟨rfl, rfl⟩, fun c a => rfl, fun c ang ax => rfl⟩

/-- C5 counterexample: pitch(90 degrees) on a default camera does NOT yield
a view matrix equal to look-at(origin, (0,-1,0), up=(0,1,0)): that look-at
is degenerate (forward parallel to up, so its side vector is the
normalization of the zero vector) and differs from the camera's view matrix
already in the first diagonal entry (1 versus 0). -/
theorem pitch_lookat_eq_counterexample :
    (Camera3D.mkDefault.pitch (Real.pi / 2)).viewMatrix ≠
      lookAt ⟨0, 0, 0⟩ ⟨0, -1, 0⟩ ⟨0, 1, 0⟩ := by
  rw [pitch90_default_view, lookAt_pitch90_degenerate_eq]
  intro h
  have h0 := congrArg Mat4.m00 h
  norm_num at h0

/-- C5 amended: pitch(a), yaw(a), roll(a) produce exactly the same resulting
state as rotate(a, (1,0,0)), rotate(a, (0,1,0)), rotate(a, (0,0,1))
respectively, each using the world unit axis as the rotation-axis argument;
in particular pitch(90 degrees) on a default camera yields the same view
matrix as rotate(90 degrees, (1,0,0)), whose value is the matrix with
columns (1,0,0,0), (0,0,1,0), (0,-1,0,0), (0,0,0,1) (the look-at transform
with target (0,-1,0) and up (0,1,0) is degenerate and is not equal to it). -/
theorem pitch_yaw_roll_wrap_rotate :
    (∀ (c : Camera3D) (a : ℝ), c.pitch a = c.rotateAngleAxis a ⟨1, 0, 0⟩) ∧
      (∀ (c : Camera3D) (a : ℝ), c.yaw a = c.rotateAngleAxis a ⟨0, 1, 0⟩) ∧
      (∀ (c : Camera3D) (a : ℝ), c.roll a = c.rotateAngleAxis a ⟨0, 0, 1⟩) ∧
      (Camera3D.mkDefault.pitch (Real.pi / 2)).viewMatrix =
        (Camera3D.mkDefault.rotateAngleAxis (Real.pi / 2)
            ⟨1, 0, 0⟩).viewMatrix ∧
      (Camera3D.mkDefault.pitch (Real.pi / 2)).viewMatrix =
        ⟨1, 0, 0, 0, 0, 0, 1, 0, 0, -1, 0, 0, 0, 0, 0, 1⟩ :=
  ⟨fun c a => rfl, fun c a => rfl, fun c a => rfl, rfl, pitch90_default_view⟩

/-- C6: A default-constructed camera has position (0,0,0) and identity
orientation, and its view matrix equals the 4x4 identity matrix, which also
equals the look-at transform with eye=(0,0,0), target=(0,0,-1),
up=(0,1,0). -/
theorem default_camera_view_identity :
    Camera3D.mkDefault.position = ⟨0, 0, 0⟩ ∧
      Camera3D.mkDefault.orientation = Quat.one ∧
      Camera3D.mkDefault.viewMatrix = Mat4.identity ∧
      Camera3D.mkDefault.viewMatrix = lookAt ⟨0, 0, 0⟩ ⟨0, 0, -1⟩ ⟨0, 1, 0⟩ := by
  refine ⟨rfl, rfl, ?_, ?_⟩
  · rw [Camera3D.mkDefault, Camera3D.view_after_update]
    simp only [mat4Cast, glmTranslate, Mat4.identity, Mat4.mul, Quat.one,
      Vec3.zero, Vec3.neg]
    norm_num
  · rw [Camera3D.mkDefault, Camera3D.view_after_update]
    simp only [lookAt, Vec3.vnormalize, Vec3.sub, Vec3.cross, Vec3.dot,
      Vec3.smul, Vec3.neg, Vec3.zero, Mat4.mul, mat4Cast, glmTranslate,
      Mat4.identity, Quat.one]
    norm_num [Real.sqrt_one]

/-- C7: For every camera state and every angle f, setPitch(f) (and
analogously setYaw(f) with component 1, setRoll(f) with component 2)
results in orientation = normalize(quaternionFromEuler(e')) where e is the
Euler-angle decomposition of the current orientation and e' is e with the
named component replaced by f — it decomposes, overwrites the one named
component, and recomposes via setEulerAngles, leaving position unchanged. -/
theorem set_euler_component_roundtrip :
    ∀ (c : Camera3D) (f : ℝ),
      (c.setPitch f =
          c.setEulerAngles ⟨f, c.getEulerAngles.y, c.getEulerAngles.z⟩ ∧
        (c.setPitch f).orientation =
          (quatFromEuler ⟨f, c.getEulerAngles.y, c.getEulerAngles.z⟩).normalize ∧
        (c.setPitch f).position = c.position) ∧
      (c.setYaw f =
          c.setEulerAngles ⟨c.getEulerAngles.x, f, c.getEulerAngles.z⟩ ∧
        (c.setYaw f).orientation =
          (quatFromEuler ⟨c.getEulerAngles.x, f, c.getEulerAngles.z⟩).normalize ∧
        (c.setYaw f).position = c.position) ∧
      (c.setRoll f =
          c.setEulerAngles ⟨c.getEulerAngles.x, c.getEulerAngles.y, f⟩ ∧
        (c.setRoll f).orientation =
          (quatFromEuler ⟨c.getEulerAngles.x, c.getEulerAngles.y, f⟩).normalize ∧
        (c.setRoll f).position = c.position) :=
  fun c f =>
    ⟨⟨rfl, rfl, rfl⟩, ⟨rfl, rfl, rfl⟩, ⟨rfl, rfl, rfl⟩⟩

/-- C9: For every reachable camera state, calling
setOrientation(getOrientation()) leaves the view matrix unchanged, and
calling setPosition(getPosition()) likewise leaves the view matrix
unchanged. -/
theorem set_get_roundtrip_view_unchanged {c : Camera3D} (h : Reachable c) :
    (c.setOrientation c.getOrientation).viewMatrix = c.viewMatrix ∧
      (c.setPosition c.getPosition).viewMatrix = c.viewMatrix := by
  constructor
  · calc (c.setOrientation c.getOrientation).viewMatrix
        = Mat4.mul (mat4Cast c.orientation.normalize)
            (glmTranslate Mat4.identity c.position.neg) := by
          simp only [Camera3D.setOrientation, Camera3D.getOrientation,
            Camera3D.view_after_update]
      _ = Mat4.mul (mat4Cast c.orientation)
            (glmTranslate Mat4.identity c.position.neg) := by
          rw [h.orientation_normalized]
      _ = c.viewMatrix := h.view_eq.symm
  · calc (c.setPosition c.getPosition).viewMatrix
        = Mat4.mul (mat4Cast c.orientation)
            (glmTranslate Mat4.identity c.position.neg) := by
          simp only [Camera3D.setPosition, Camera3D.getPosition,
            Camera3D.view_after_update]
      _ = c.viewMatrix := h.view_eq.symm

theorem set_get_roundtrip_view_unchanged_witness :
    (Camera3D.mkDefault.setOrientation
          Camera3D.mkDefault.getOrientation).viewMatrix =
        Camera3D.mkDefault.viewMatrix ∧
      (Camera3D.mkDefault.setPosition
          Camera3D.mkDefault.getPosition).viewMatrix =
        Camera3D.mkDefault.viewMatrix :=
  set_get_roundtrip_view_unchanged Reachable.mkDefault

/-- C10: For every camera state whose orientation is unit-length and for all
unit quaternions q1 and q2, calling rotate(q1) and then rotate(q2) produces
exactly the same resulting state (position, orientation, and view matrix)
as the single call rotate(q1 * q2). -/
theorem rotate_rotate_eq_rotate_mul {c : Camera3D}
    (h1 : c.orientation.normSq = 1) {q1 q2 : Quat} (hq1 : q1.normSq = 1)
    (hq2 : q2.normSq = 1) :
    (c.rotateQuat q1).rotateQuat q2 = c.rotateQuat (q1.mul q2) := by
  have hu1 : (c.orientation.mul q1).normSq = 1 := by
    rw [Quat.normSq_mul, h1, hq1]
    norm_num
  simp only [Camera3D.rotateQuat, Camera3D.updateViewMatrix]
  rw [Quat.normalize_of_normSq_one hu1, Quat.mul_assoc]

theorem rotate_rotate_eq_rotate_mul_witness :
    Camera3D.mkDefault.orientation.normSq = 1 ∧
      Quat.normSq ⟨0, 1, 0, 0⟩ = 1 ∧
      (Camera3D.mkDefault.rotateQuat ⟨0, 1, 0, 0⟩).rotateQuat ⟨0, 0, 1, 0⟩ =
        Camera3D.mkDefault.rotateQuat (Quat.mul ⟨0, 1, 0, 0⟩ ⟨0, 0, 1, 0⟩) :=
  ⟨Quat.normSq_one, by norm_num [Quat.normSq],
    rotate_rotate_eq_rotate_mul Quat.normSq_one
      (by norm_num [Quat.normSq]) (by norm_num [Quat.normSq])⟩

end Diffusion
